import Mathlib

/-!
# MCUMixer: publisher/subscriber registries, slot allocation and delivery paths

A shallow embedding of `source/core/mcu/MCUMixer.cpp`.

* The mixer object is the record `MCUMixer`; every member function becomes a
  function from the mixer (and its arguments) to an `Outcome`: the mixer
  afterwards, the returned value and the ordered trace of the calls the body
  makes on its collaborators, on the registry mutex and on the subscriber
  registry.
* `std::map` is `AList` (a finite map with unique keys).  Its iteration order
  is the order of `entries`; no statement below depends on that order.
* A `boost::shared_ptr` that may be null is an `Option`.  Every owning pointer of
  the subscriber registry is built from a raw pointer and never copied out of
  the registry, so releasing it (by overwriting or erasing the entry) deletes
  the sink: the trace records the deletion, and the calls made on a sink.
* `ELOG_DEBUG` lines are not modelled.
* A failing C `assert` aborts the call: functions containing one return an
  `Option`, `none` being the abort.
-/

namespace mcu

/-! ## Collaborator types -/

/-- Address of a live `erizo::MediaSource` object: the identity of a publisher.  The null
pointer is not a source; where the code stores `NULL` the embedding stores `none`. -/
abbrev MediaSource := Nat

/-- A `char*` packet buffer, identified by its address. -/
abbrev Buffer := Nat

/-- Address of an `erizo::FeedbackSource` object. -/
abbrev FeedbackSource := Nat

/-- The shared feedback sink created by `init` (`feedback_`). -/
structure FeedbackSink where
  addr : Nat
deriving DecidableEq

/-- Modelled from the spec: `erizo::MediaSink` is declared outside this file.  A media sink
receives mixed audio/video and exposes an optional feedback-source capability
(`getFeedbackSource()` yields it, or none). -/
structure MediaSink where
  addr : Nat
  feedbackSource : Option FeedbackSource
deriving DecidableEq

/-- Modelled from the spec: `erizo::DataType` is declared outside this file; the outbound
contract lists the media types AUDIO, VIDEO and OTHER. -/
inductive DataType where
  | VIDEO
  | AUDIO
  | OTHER
deriving DecidableEq

/-- Modelled from the spec: the audio input processor of a publisher, constructed with the
slot index (`new ACMInputProcessor(index)`). -/
structure ACMInputProcessor where
  index : Int
deriving DecidableEq

/-- Modelled from the spec: the video input processor of a publisher, constructed with the
slot index (`new VCMInputProcessor(index, vop_.get())`) and linked to its audio
counterpart by `setAudioInputProcessor`. -/
structure VCMInputProcessor where
  index : Int
  aip : ACMInputProcessor
deriving DecidableEq

/-- Modelled from the spec: the receiver wrapper of a publisher
(`new ProtectedRTPReceiver(ip)`), owning the input processors. -/
structure ProtectedRTPReceiver where
  ip : VCMInputProcessor
deriving DecidableEq

/-! ## Traces -/

/-- The accesses a member function makes to `subscribers_`. -/
inductive RegistryOp where
  | isEmpty   -- subscribers_.empty()
  | iterBegin -- subscribers_.begin()
  | iterEnd   -- comparison with subscribers_.end()
  | iterRead  -- (*it).second
  | iterNext  -- ++it
  | find      -- subscribers_.find(peerId)
  | erase     -- subscribers_.erase(..)
  | assign    -- subscribers_[peerId] = ..
  | clear     -- subscribers_.clear()
deriving DecidableEq

/-- One observable step of a member function.  The delivery events of the
fan-out carry the key of the registry entry whose sink is being called;
`deleteSink` is the deletion of a sink by the release of the `shared_ptr` that
owned it. -/
inductive Ev where
  | lock
  | unlock
  | registry (op : RegistryOp)
  | sinkDeliverAudio (peerId : String) (sink : MediaSink) (buf : Buffer) (len : Int)
  | sinkDeliverVideo (peerId : String) (sink : MediaSink) (buf : Buffer) (len : Int)
  | sinkGetFeedbackSource (sink : MediaSink)
  | setFeedbackSink (fbsource : FeedbackSource) (sink : Option FeedbackSink)
  | deleteSink (sink : MediaSink)
  | receiverDeliverAudio (receiver : ProtectedRTPReceiver) (buf : Buffer) (len : Int)
  | receiverDeliverVideo (receiver : ProtectedRTPReceiver) (buf : Buffer) (len : Int)
  | updateMaxSlot (n : Int)
  | setMixabilityStatus (aip : ACMInputProcessor) (mixable : Bool)
deriving DecidableEq

/-! ## The mixer -/

/-- The publisher registry `publishers_`. -/
abbrev PublisherMap := AList (fun _ : MediaSource => Option ProtectedRTPReceiver)

/-- The subscriber registry `subscribers_`. -/
abbrev SubscriberMap := AList (fun _ : String => Option MediaSink)

/-- Modelled from the spec: the slot table `puberSlotMap_` is declared outside this file;
it maps a slot index to the occupying publisher, or to empty. -/
abbrev SlotTable := List (Option MediaSource)

/-- The members of `MCUMixer` that the registries and delivery paths use. -/
structure MCUMixer where
  publishers_ : PublisherMap
  puberSlotMap_ : SlotTable
  subscribers_ : SubscriberMap
  feedback_ : FeedbackSink
deriving DecidableEq

/-- What a member function leaves behind: the mixer, the returned value and the
trace of its observable steps. -/
structure Outcome (α : Type) where
  mixer : MCUMixer
  value : α
  trace : List Ev

/-- A freshly initialised mixer: no publisher, no subscriber, no slot. -/
def MCUMixer.empty (fb : FeedbackSink) : MCUMixer :=
  { publishers_ := ∅, puberSlotMap_ := [], subscribers_ := ∅, feedback_ := fb }

/-- C `assert(e)`: the call goes on when `e` holds and aborts otherwise. -/
def cAssert {α : Type} (e : Bool) (k : α) : Option α :=
  if e then some k else none

/-- A string literal used as a condition is a non-null `const char*`: it is
true whatever its text. -/
def stringLiteralAsCondition (_text : String) : Bool := true

/-! ## Slot table helpers (declared in the header) -/

/-- Modelled from the spec: `assignSlot` is defined outside this file.  It allocates the
lowest unused slot index to the publisher (a slot past the end of the table is
unused) and returns the table afterwards with that index. -/
def assignSlot (pub : MediaSource) : SlotTable → SlotTable × Nat
  | [] => ([some pub], 0)
  | none :: rest => (some pub :: rest, 0)
  | some q :: rest => (some q :: (assignSlot pub rest).1, (assignSlot pub rest).2 + 1)

/-- Index of the first slot occupied by `pub`, if any. -/
def findSlot (pub : MediaSource) : SlotTable → Option Nat
  | [] => none
  | s :: rest => if s = some pub then some 0 else (findSlot pub rest).map (· + 1)

/-- Modelled from the spec: `getSlot` is defined outside this file.  It is a pure lookup of
the slot of a publisher; the caller asserts `index >= 0`, so a publisher without
a slot yields a negative index. -/
def getSlot (pub : MediaSource) (tbl : SlotTable) : Int :=
  match findSlot pub tbl with
  | some i => (i : Int)
  | none => -1

/-- Modelled from the spec: `maxSlot` is defined outside this file.  It is the count of
populated slots. -/
def maxSlot (tbl : SlotTable) : Int :=
  ((tbl.filter Option.isSome).length : Int)

/-! ## Inbound delivery -/

/-- Embedding of `MCUMixer::deliverAudioData`.  `receiverResult` is what the receiver
wrapper's own `deliverAudioData` returns. -/
def deliverAudioData (receiverResult : ProtectedRTPReceiver → Buffer → Int → Int)
    (m : MCUMixer) (buf : Buffer) (len : Int) (src : MediaSource) : Outcome Int :=
  match m.publishers_.lookup src with
  | some (some r) => ⟨m, receiverResult r buf len, [Ev.receiverDeliverAudio r buf len]⟩
  | _ => ⟨m, 0, []⟩

/-- Embedding of `MCUMixer::deliverVideoData`.  `receiverResult` is what the receiver
wrapper's own `deliverVideoData` returns. -/
def deliverVideoData (receiverResult : ProtectedRTPReceiver → Buffer → Int → Int)
    (m : MCUMixer) (buf : Buffer) (len : Int) (src : MediaSource) : Outcome Int :=
  match m.publishers_.lookup src with
  | some (some r) => ⟨m, receiverResult r buf len, [Ev.receiverDeliverVideo r buf len]⟩
  | _ => ⟨m, 0, []⟩

/-! ## Outbound fan-out -/

/-- The `for` loop of the `erizo::AUDIO` case over the registry entries. -/
def fanOutAudio (buf : Buffer) (len : Int) :
    List (Sigma (fun _ : String => Option MediaSink)) → List Ev
  | [] => [Ev.registry RegistryOp.iterEnd]
  | e :: rest =>
    [Ev.registry RegistryOp.iterEnd, Ev.registry RegistryOp.iterRead]
      ++ (match e.2 with
          | some sink => [Ev.sinkDeliverAudio e.1 sink buf len]
          | none => [])
      ++ Ev.registry RegistryOp.iterNext :: fanOutAudio buf len rest

/-- The `for` loop of the `erizo::VIDEO` case over the registry entries. -/
def fanOutVideo (buf : Buffer) (len : Int) :
    List (Sigma (fun _ : String => Option MediaSink)) → List Ev
  | [] => [Ev.registry RegistryOp.iterEnd]
  | e :: rest =>
    [Ev.registry RegistryOp.iterEnd, Ev.registry RegistryOp.iterRead]
      ++ (match e.2 with
          | some sink => [Ev.sinkDeliverVideo e.1 sink buf len]
          | none => [])
      ++ Ev.registry RegistryOp.iterNext :: fanOutVideo buf len rest

/-- Embedding of `MCUMixer::receiveRtpData`. -/
def receiveRtpData (m : MCUMixer) (buf : Buffer) (len : Int) (type : DataType)
    (_streamId : Nat) : Outcome Unit :=
  if m.subscribers_.entries.isEmpty || decide (len ≤ 0) then
    ⟨m, (), [Ev.registry RegistryOp.isEmpty]⟩
  else
    match type with
    | DataType.AUDIO =>
      ⟨m, (), [Ev.registry RegistryOp.isEmpty, Ev.lock, Ev.registry RegistryOp.iterBegin]
        ++ fanOutAudio buf len m.subscribers_.entries ++ [Ev.unlock]⟩
    | DataType.VIDEO =>
      ⟨m, (), [Ev.registry RegistryOp.isEmpty, Ev.lock, Ev.registry RegistryOp.iterBegin]
        ++ fanOutVideo buf len m.subscribers_.entries ++ [Ev.unlock]⟩
    | DataType.OTHER =>
      ⟨m, (), [Ev.registry RegistryOp.isEmpty, Ev.lock, Ev.unlock]⟩

/-! ## Publisher registry -/

/-- Embedding of `MCUMixer::addPublisher`. -/
def addPublisher (m : MCUMixer) (puber : MediaSource) : Option (Outcome Unit) :=
  let assigned := assignSlot puber m.puberSlotMap_
  let index : Int := (assigned.2 : Int)
  let m1 : MCUMixer := { m with puberSlotMap_ := assigned.1 }
  match m1.publishers_.lookup puber with
  | some (some _) =>
    cAssert (stringLiteralAsCondition "new publisher added with InputProcessor still available")
      ⟨m1, (), []⟩
  | _ =>
    let aip : ACMInputProcessor := ⟨index⟩
    let ip : VCMInputProcessor := ⟨index, aip⟩
    some ⟨{ m1 with publishers_ := m1.publishers_.insert puber (some ⟨ip⟩) }, (),
      [Ev.updateMaxSlot (maxSlot m1.puberSlotMap_), Ev.setMixabilityStatus aip true]⟩

/-- Embedding of `MCUMixer::removePublisher`. -/
def removePublisher (m : MCUMixer) (puber : MediaSource) : Option (Outcome Unit) :=
  match m.publishers_.lookup puber with
  | some _ =>
    let index := getSlot puber m.puberSlotMap_
    cAssert (decide (0 ≤ index))
      ⟨{ m with puberSlotMap_ := m.puberSlotMap_.set index.toNat none,
                publishers_ := m.publishers_.erase puber }, (), []⟩
  | none => some ⟨m, (), []⟩

/-! ## Subscriber registry -/

/-- The release of the owning pointer held by a registry entry: the sink it owns is
deleted; a null pointer owns nothing. -/
def releaseOwner : Option MediaSink → List Ev
  | some sink => [Ev.deleteSink sink]
  | none => []

/-- Embedding of `MCUMixer::addSubscriber`.  The assignment
`subscribers_[peerId] = boost::shared_ptr<MediaSink>(suber)` makes a new owner of `suber`
and releases the owner the entry held before, if the entry existed. -/
def addSubscriber (m : MCUMixer) (suber : MediaSink) (peerId : String) : Outcome Unit :=
  ⟨{ m with subscribers_ := m.subscribers_.insert peerId (some suber) }, (),
    [Ev.lock, Ev.sinkGetFeedbackSource suber]
      ++ (match suber.feedbackSource with
          | some fbsource => [Ev.setFeedbackSink fbsource (some m.feedback_)]
          | none => [])
      ++ [Ev.registry RegistryOp.assign]
      ++ (match m.subscribers_.lookup peerId with
          | some old => releaseOwner old
          | none => [])
      ++ [Ev.unlock]⟩

/-- Embedding of `MCUMixer::removeSubscriber`. -/
def removeSubscriber (m : MCUMixer) (peerId : String) : Outcome Unit :=
  match m.subscribers_.lookup peerId with
  | some old =>
    ⟨{ m with subscribers_ := m.subscribers_.erase peerId }, (),
      [Ev.lock, Ev.registry RegistryOp.find, Ev.registry RegistryOp.iterEnd,
        Ev.registry RegistryOp.erase] ++ releaseOwner old ++ [Ev.unlock]⟩
  | none =>
    ⟨m, (), [Ev.lock, Ev.registry RegistryOp.find, Ev.registry RegistryOp.iterEnd, Ev.unlock]⟩

/-- The `while` loop of `closeAll` over the entries still to visit: unbind the
feedback source of the entry's sink, erase the entry (which releases its owner), go
on. -/
def closeAllLoop (subs : SubscriberMap) :
    List (Sigma (fun _ : String => Option MediaSink)) → SubscriberMap × List Ev
  | [] => (subs, [Ev.registry RegistryOp.iterEnd])
  | e :: rest =>
    let unbind : List Ev :=
      match e.2 with
      | some sink =>
        Ev.sinkGetFeedbackSource sink ::
          (match sink.feedbackSource with
           | some fbsource => [Ev.setFeedbackSink fbsource none]
           | none => [])
      | none => []
    let next := closeAllLoop (subs.erase e.1) rest
    (next.1,
      [Ev.registry RegistryOp.iterEnd, Ev.registry RegistryOp.iterRead] ++ unbind
        ++ [Ev.registry RegistryOp.iterNext, Ev.registry RegistryOp.erase]
        ++ releaseOwner e.2 ++ next.2)

/-- Embedding of `MCUMixer::closeAll`. -/
def closeAll (m : MCUMixer) : Outcome Unit :=
  let looped := closeAllLoop m.subscribers_ m.subscribers_.entries
  let m1 : MCUMixer := { m with subscribers_ := looped.1 }
  ⟨{ m1 with subscribers_ := (∅ : SubscriberMap) }, (),
    [Ev.lock, Ev.registry RegistryOp.iterBegin] ++ looped.2
      ++ [Ev.unlock, Ev.lock, Ev.registry RegistryOp.clear, Ev.unlock]⟩

/-! ## Vocabulary of the statements -/

/-- A call of a subscriber sink's audio delivery method. -/
def Ev.isSinkAudio : Ev → Bool
  | Ev.sinkDeliverAudio _ _ _ _ => true
  | _ => false

/-- A call of a subscriber sink's video delivery method. -/
def Ev.isSinkVideo : Ev → Bool
  | Ev.sinkDeliverVideo _ _ _ _ => true
  | _ => false

/-- A call forwarded to a publisher's receiver wrapper. -/
def Ev.isReceiverDelivery : Ev → Bool
  | Ev.receiverDeliverAudio _ _ _ => true
  | Ev.receiverDeliverVideo _ _ _ => true
  | _ => false

/-- The feedback sink of the example mixers. -/
def theFeedback : FeedbackSink := ⟨900⟩

/-- A sink exposing a feedback source. -/
def sinkA : MediaSink := ⟨501, some 601⟩

/-- A sink without feedback source. -/
def sinkB : MediaSink := ⟨502, none⟩

/-- The mixer after `addSubscriber(sinkA, "peer1")` and `addSubscriber(sinkB, "peer2")`. -/
def twoSubscribers : MCUMixer :=
  (addSubscriber (addSubscriber (MCUMixer.empty theFeedback) sinkA "peer1").mixer sinkB
    "peer2").mixer

/-- The mixer of an outcome, or `dflt` when the call aborted. -/
def mixerOr (dflt : MCUMixer) : Option (Outcome Unit) → MCUMixer
  | some o => o.mixer
  | none => dflt

/-- The mixer after `addPublisher(1000)` on a fresh mixer. -/
def onePublisher : MCUMixer :=
  mixerOr (MCUMixer.empty theFeedback) (addPublisher (MCUMixer.empty theFeedback) 1000)

/-! ## Ownership of the subscriber sinks -/

/-- Whether the event acquires or releases the registry mutex. -/
def Ev.isMutexOp : Ev → Bool
  | Ev.lock => true
  | Ev.unlock => true
  | _ => false

/-- Whether the event reads or writes the subscriber registry. -/
def Ev.isRegistryAccess : Ev → Bool
  | Ev.registry _ => true
  | _ => false

/-- Every registry access of the trace happens while the mutex is held; `held` tells
whether it is held when the trace starts. -/
def accessesUnderLock : Bool → List Ev → Bool
  | _, [] => true
  | _, Ev.lock :: rest => accessesUnderLock true rest
  | _, Ev.unlock :: rest => accessesUnderLock false rest
  | held, Ev.registry _ :: rest => held && accessesUnderLock held rest
  | held, _ :: rest => accessesUnderLock held rest

/-- No release of the mutex lies between two registry accesses of the trace, that is,
between the first access and the last.  `seen` tells whether an access has occurred,
`released` whether the mutex has been released since. -/
def heldBetweenAccesses : Bool → Bool → List Ev → Bool
  | _, _, [] => true
  | seen, released, Ev.unlock :: rest => heldBetweenAccesses seen (seen || released) rest
  | _, released, Ev.registry _ :: rest => !released && heldBetweenAccesses true released rest
  | seen, released, _ :: rest => heldBetweenAccesses seen released rest

/-- The discipline of the registry mutex over the trace of one operation: every access
under the mutex, and the mutex held from the first access to the last. -/
def lockDiscipline (tr : List Ev) : Bool :=
  accessesUnderLock false tr && heldBetweenAccesses false false tr

/-! ## Runs of publisher operations -/

/-- The publisher occupying slot `i` of the table; none when the slot is empty or past
the end of the table. -/
def slotAt : SlotTable → Nat → Option MediaSource
  | [], _ => none
  | s :: _, 0 => s
  | _ :: rest, i + 1 => slotAt rest i

/-- The highest slot index holding a publisher, if any slot does. -/
def maxOccupiedSlot : SlotTable → Option Nat
  | [] => none
  | s :: rest =>
    match maxOccupiedSlot rest with
    | some i => some (i + 1)
    | none => if s.isSome then some 0 else none

/-- Whether the event is a call of the video engine's `updateMaxSlot`. -/
def Ev.isUpdateMaxSlot : Ev → Bool
  | Ev.updateMaxSlot _ => true
  | _ => false

/-- Whether the source has an entry in the publisher registry. -/
def isRegistered (m : MCUMixer) (p : MediaSource) : Bool :=
  (m.publishers_.lookup p).isSome

/-- A call on the publisher side of the mixer. -/
inductive PublisherOp where
  | add (p : MediaSource)
  | remove (p : MediaSource)
deriving DecidableEq

/-- The mixer after one publisher call; none when the call aborts. -/
def applyOp (m : MCUMixer) : PublisherOp → Option MCUMixer
  | PublisherOp.add p => (addPublisher m p).map (fun o => o.mixer)
  | PublisherOp.remove p => (removePublisher m p).map (fun o => o.mixer)

/-- The mixer after a sequence of publisher calls; none when one of them aborts. -/
def runOps : MCUMixer → List PublisherOp → Option MCUMixer
  | m, [] => some m
  | m, op :: rest =>
    match applyOp m op with
    | some m1 => runOps m1 rest
    | none => none

/-- No call of the sequence adds a source that is registered at that moment. -/
def noDoubleAdd : MCUMixer → List PublisherOp → Bool
  | _, [] => true
  | m, op :: rest =>
    (match op with
      | PublisherOp.add p => !isRegistered m p
      | PublisherOp.remove _ => true)
    && (match applyOp m op with
        | some m1 => noDoubleAdd m1 rest
        | none => true)

/-- The mixer after `addPublisher(1000)`, `addPublisher(1001)` on a fresh mixer. -/
def twoPublishers : MCUMixer :=
  mixerOr onePublisher (addPublisher onePublisher 1001)

/-- The slot table and the publisher registry tell the same story: no entry holds a null
receiver, every occupied slot holds a registered publisher whose receiver was built with
that slot index, and every registered publisher sits in the slot its receiver was built
with. -/
def SlotsAgree (m : MCUMixer) : Prop :=
  (∀ p, m.publishers_.lookup p ≠ some none)
  ∧ (∀ (i : Nat) p, slotAt m.puberSlotMap_ i = some p →
      ∃ r, m.publishers_.lookup p = some (some r) ∧ r.ip.index = (i : Int))
  ∧ (∀ p r, m.publishers_.lookup p = some (some r) →
      ∃ i : Nat, r.ip.index = (i : Int) ∧ slotAt m.puberSlotMap_ i = some p)

/-! ## Properties -/

/-- C3: for a source without an entry in the publisher registry, `deliverAudioData` and
`deliverVideoData` return 0, forward nothing to any receiver wrapper and leave the
publisher registry, the slot table and the subscriber registry as they were. -/
theorem deliver_unknown_source (receiverResult : ProtectedRTPReceiver → Buffer → Int → Int)
    (m : MCUMixer) (buf : Buffer) (len : Int) (src : MediaSource)
    (hsrc : m.publishers_.lookup src = none) :
    ((deliverAudioData receiverResult m buf len src).value = 0
      ∧ (deliverAudioData receiverResult m buf len src).trace = []
      ∧ (deliverAudioData receiverResult m buf len src).mixer = m)
    ∧ ((deliverVideoData receiverResult m buf len src).value = 0
      ∧ (deliverVideoData receiverResult m buf len src).trace = []
      ∧ (deliverVideoData receiverResult m buf len src).mixer = m) := by
  simp [deliverAudioData, deliverVideoData, hsrc]

/-- C3 at a concrete input: source 2000 is unknown to the mixer holding publisher 1000. -/
theorem deliver_unknown_source_witness :
    onePublisher.publishers_.lookup 2000 = none
    ∧ ((deliverAudioData (fun _ _ l => l) onePublisher 7 100 2000).value = 0
      ∧ (deliverAudioData (fun _ _ l => l) onePublisher 7 100 2000).trace = []
      ∧ (deliverAudioData (fun _ _ l => l) onePublisher 7 100 2000).mixer = onePublisher)
    ∧ ((deliverVideoData (fun _ _ l => l) onePublisher 7 100 2000).value = 0
      ∧ (deliverVideoData (fun _ _ l => l) onePublisher 7 100 2000).trace = []
      ∧ (deliverVideoData (fun _ _ l => l) onePublisher 7 100 2000).mixer = onePublisher) :=
  ⟨by decide, deliver_unknown_source (fun _ _ l => l) onePublisher 7 100 2000 (by decide)⟩

/-- C7 fails as stated: for the registered source 1000 and length 0 both delivery functions
forward the packet to the receiver wrapper of the publisher (here a wrapper that itself
returns 0). -/
theorem deliver_zero_length_is_forwarded :
    (0 : Int) ≤ 0
    ∧ (deliverAudioData (fun _ _ _ => 0) onePublisher 7 0 1000).trace
        = [Ev.receiverDeliverAudio ⟨⟨0, ⟨0⟩⟩⟩ 7 0]
    ∧ (deliverVideoData (fun _ _ _ => 0) onePublisher 7 0 1000).trace
        = [Ev.receiverDeliverVideo ⟨⟨0, ⟨0⟩⟩⟩ 7 0]
    ∧ ¬ (∀ e ∈ (deliverAudioData (fun _ _ _ => 0) onePublisher 7 0 1000).trace,
          e.isReceiverDelivery = false) := by
  decide

/-- C7, amended: whatever the length (zero and negative included), the delivery functions
leave the mixer as it was; for a source without entry, or whose entry holds no receiver,
they return 0 and forward nothing; for a registered source they forward the buffer and
the length once to its receiver wrapper and return what the wrapper returns. -/
theorem deliver_any_length (receiverResult : ProtectedRTPReceiver → Buffer → Int → Int)
    (m : MCUMixer) (buf : Buffer) (len : Int) (src : MediaSource) :
    ((deliverAudioData receiverResult m buf len src).mixer = m
      ∧ (deliverVideoData receiverResult m buf len src).mixer = m)
    ∧ ((m.publishers_.lookup src = none ∨ m.publishers_.lookup src = some none) →
        ((deliverAudioData receiverResult m buf len src).value = 0
          ∧ (deliverAudioData receiverResult m buf len src).trace = [])
        ∧ ((deliverVideoData receiverResult m buf len src).value = 0
          ∧ (deliverVideoData receiverResult m buf len src).trace = []))
    ∧ (∀ r, m.publishers_.lookup src = some (some r) →
        ((deliverAudioData receiverResult m buf len src).value = receiverResult r buf len
          ∧ (deliverAudioData receiverResult m buf len src).trace
              = [Ev.receiverDeliverAudio r buf len])
        ∧ ((deliverVideoData receiverResult m buf len src).value = receiverResult r buf len
          ∧ (deliverVideoData receiverResult m buf len src).trace
              = [Ev.receiverDeliverVideo r buf len])) := by
  refine ⟨?_, ?_, ?_⟩
  · unfold deliverAudioData deliverVideoData
    constructor <;> split <;> rfl
  · rintro (h | h) <;> simp [deliverAudioData, deliverVideoData, h]
  · intro r h
    simp [deliverAudioData, deliverVideoData, h]

/-- C8: when the subscriber registry is empty, or the length is not positive, or the type is
neither AUDIO nor VIDEO, `receiveRtpData` calls no delivery method of any subscriber and
leaves the mixer as it was. -/
theorem receiveRtpData_noop (m : MCUMixer) (buf : Buffer) (len : Int) (type : DataType)
    (streamId : Nat)
    (h : m.subscribers_.entries = [] ∨ len ≤ 0
          ∨ (type ≠ DataType.AUDIO ∧ type ≠ DataType.VIDEO)) :
    (∀ e ∈ (receiveRtpData m buf len type streamId).trace,
        e.isSinkAudio = false ∧ e.isSinkVideo = false)
    ∧ (receiveRtpData m buf len type streamId).mixer = m := by
  unfold receiveRtpData
  split
  · simp [Ev.isSinkAudio, Ev.isSinkVideo]
  · rename_i hc
    simp only [Bool.or_eq_true, List.isEmpty_iff, decide_eq_true_eq, not_or] at hc
    rcases h with h | h | h
    · exact absurd h hc.1
    · exact absurd h hc.2
    · cases type
      · exact absurd rfl h.2
      · exact absurd rfl h.1
      · simp [Ev.isSinkAudio, Ev.isSinkVideo]

/-- C8 at the scenario of the specification: no subscriber, `receiveRtpData(buf, 100, VIDEO, 7)`. -/
theorem receiveRtpData_noop_witness :
    ((MCUMixer.empty theFeedback).subscribers_.entries = [] ∨ (100 : Int) ≤ 0
      ∨ (DataType.VIDEO ≠ DataType.AUDIO ∧ DataType.VIDEO ≠ DataType.VIDEO))
    ∧ (∀ e ∈ (receiveRtpData (MCUMixer.empty theFeedback) 5 100 DataType.VIDEO 7).trace,
        e.isSinkAudio = false ∧ e.isSinkVideo = false)
    ∧ (receiveRtpData (MCUMixer.empty theFeedback) 5 100 DataType.VIDEO 7).mixer
        = MCUMixer.empty theFeedback :=
  ⟨Or.inl rfl,
    receiveRtpData_noop (MCUMixer.empty theFeedback) 5 100 DataType.VIDEO 7 (Or.inl rfl)⟩

/-! ### Overwriting a subscriber -/

/-- What the AUDIO fan-out loop emits. -/
theorem mem_fanOutAudio (buf : Buffer) (len : Int)
    (es : List (Sigma (fun _ : String => Option MediaSink))) (e : Ev) :
    e ∈ fanOutAudio buf len es ↔
      (e = Ev.registry RegistryOp.iterEnd
        ∨ (es ≠ [] ∧ (e = Ev.registry RegistryOp.iterRead ∨ e = Ev.registry RegistryOp.iterNext))
        ∨ ∃ p s, (⟨p, some s⟩ : Sigma (fun _ : String => Option MediaSink)) ∈ es
            ∧ e = Ev.sinkDeliverAudio p s buf len) := by
  induction es with
  | nil => simp [fanOutAudio]
  | cons x rest ih =>
    obtain ⟨k, v⟩ := x
    cases v with
    | none =>
      simp only [fanOutAudio, List.append_nil, List.cons_append, List.nil_append,
        List.mem_cons, ih]
      constructor
      · rintro (h | h | h | h | h | h)
        · exact Or.inl h
        · exact Or.inr (Or.inl ⟨by simp, Or.inl h⟩)
        · exact Or.inr (Or.inl ⟨by simp, Or.inr h⟩)
        · exact Or.inl h
        · exact Or.inr (Or.inl ⟨by simp, h.2⟩)
        · obtain ⟨p, s, hm, he⟩ := h
          exact Or.inr (Or.inr ⟨p, s, Or.inr hm, he⟩)
      · rintro (h | ⟨-, h | h⟩ | ⟨p, s, hm | hm, he⟩)
        · exact Or.inl h
        · exact Or.inr (Or.inl h)
        · exact Or.inr (Or.inr (Or.inl h))
        · cases hm
        · exact Or.inr (Or.inr (Or.inr (Or.inr (Or.inr ⟨p, s, hm, he⟩))))
    | some sk =>
      simp only [fanOutAudio, List.cons_append, List.nil_append, List.mem_cons, ih]
      constructor
      · rintro (h | h | h | h | h | h | h)
        · exact Or.inl h
        · exact Or.inr (Or.inl ⟨by simp, Or.inl h⟩)
        · exact Or.inr (Or.inr ⟨k, sk, Or.inl rfl, h⟩)
        · exact Or.inr (Or.inl ⟨by simp, Or.inr h⟩)
        · exact Or.inl h
        · exact Or.inr (Or.inl ⟨by simp, h.2⟩)
        · obtain ⟨p, s, hm, he⟩ := h
          exact Or.inr (Or.inr ⟨p, s, Or.inr hm, he⟩)
      · rintro (h | ⟨-, h | h⟩ | ⟨p, s, hm | hm, he⟩)
        · exact Or.inl h
        · exact Or.inr (Or.inl h)
        · exact Or.inr (Or.inr (Or.inr (Or.inl h)))
        · cases hm
          exact Or.inr (Or.inr (Or.inl he))
        · exact Or.inr (Or.inr (Or.inr (Or.inr (Or.inr (Or.inr ⟨p, s, hm, he⟩)))))

/-- What the VIDEO fan-out loop emits. -/
theorem mem_fanOutVideo (buf : Buffer) (len : Int)
    (es : List (Sigma (fun _ : String => Option MediaSink))) (e : Ev) :
    e ∈ fanOutVideo buf len es ↔
      (e = Ev.registry RegistryOp.iterEnd
        ∨ (es ≠ [] ∧ (e = Ev.registry RegistryOp.iterRead ∨ e = Ev.registry RegistryOp.iterNext))
        ∨ ∃ p s, (⟨p, some s⟩ : Sigma (fun _ : String => Option MediaSink)) ∈ es
            ∧ e = Ev.sinkDeliverVideo p s buf len) := by
  induction es with
  | nil => simp [fanOutVideo]
  | cons x rest ih =>
    obtain ⟨k, v⟩ := x
    cases v with
    | none =>
      simp only [fanOutVideo, List.append_nil, List.cons_append, List.nil_append,
        List.mem_cons, ih]
      constructor
      · rintro (h | h | h | h | h | h)
        · exact Or.inl h
        · exact Or.inr (Or.inl ⟨by simp, Or.inl h⟩)
        · exact Or.inr (Or.inl ⟨by simp, Or.inr h⟩)
        · exact Or.inl h
        · exact Or.inr (Or.inl ⟨by simp, h.2⟩)
        · obtain ⟨p, s, hm, he⟩ := h
          exact Or.inr (Or.inr ⟨p, s, Or.inr hm, he⟩)
      · rintro (h | ⟨-, h | h⟩ | ⟨p, s, hm | hm, he⟩)
        · exact Or.inl h
        · exact Or.inr (Or.inl h)
        · exact Or.inr (Or.inr (Or.inl h))
        · cases hm
        · exact Or.inr (Or.inr (Or.inr (Or.inr (Or.inr ⟨p, s, hm, he⟩))))
    | some sk =>
      simp only [fanOutVideo, List.cons_append, List.nil_append, List.mem_cons, ih]
      constructor
      · rintro (h | h | h | h | h | h | h)
        · exact Or.inl h
        · exact Or.inr (Or.inl ⟨by simp, Or.inl h⟩)
        · exact Or.inr (Or.inr ⟨k, sk, Or.inl rfl, h⟩)
        · exact Or.inr (Or.inl ⟨by simp, Or.inr h⟩)
        · exact Or.inl h
        · exact Or.inr (Or.inl ⟨by simp, h.2⟩)
        · obtain ⟨p, s, hm, he⟩ := h
          exact Or.inr (Or.inr ⟨p, s, Or.inr hm, he⟩)
      · rintro (h | ⟨-, h | h⟩ | ⟨p, s, hm | hm, he⟩)
        · exact Or.inl h
        · exact Or.inr (Or.inl h)
        · exact Or.inr (Or.inr (Or.inr (Or.inl h)))
        · cases hm
          exact Or.inr (Or.inr (Or.inl he))
        · exact Or.inr (Or.inr (Or.inr (Or.inr (Or.inr (Or.inr ⟨p, s, hm, he⟩)))))

/-- The loop of `closeAll`, started on the entries of the registry, erases them all. -/
theorem closeAllLoop_empties (es : List (Sigma (fun _ : String => Option MediaSink))) :
    ∀ subs : SubscriberMap, subs.entries = es → (closeAllLoop subs es).1.entries = [] := by
  induction es with
  | nil =>
    intro subs h
    simpa [closeAllLoop] using h
  | cons e rest ih =>
    intro subs h
    simp only [closeAllLoop]
    apply ih
    simp [AList.erase, h, List.kerase]

/-- A stretch of events without mutex operation does not change whether the accesses
that follow are under the mutex, provided the mutex is held. -/
theorem accessesUnderLock_append (tr rest : List Ev)
    (h : ∀ e ∈ tr, e.isMutexOp = false) :
    accessesUnderLock true (tr ++ rest) = accessesUnderLock true rest := by
  induction tr with
  | nil => rfl
  | cons e tl ih =>
    have htl : ∀ x ∈ tl, x.isMutexOp = false := fun x hx => h x (List.mem_cons_of_mem _ hx)
    have he := h e (List.mem_cons_self _ _)
    cases e <;> simp_all [accessesUnderLock, Ev.isMutexOp]

/-- A stretch of events without mutex operation, entered after an access with the mutex
not released since, leaves the scan in that same situation. -/
theorem heldBetweenAccesses_append (tr rest : List Ev)
    (h : ∀ e ∈ tr, e.isMutexOp = false) :
    heldBetweenAccesses true false (tr ++ rest) = heldBetweenAccesses true false rest := by
  induction tr with
  | nil => rfl
  | cons e tl ih =>
    have htl : ∀ x ∈ tl, x.isMutexOp = false := fun x hx => h x (List.mem_cons_of_mem _ hx)
    have he := h e (List.mem_cons_self _ _)
    cases e <;> simp_all [heldBetweenAccesses, Ev.isMutexOp]

/-- The AUDIO fan-out loop does not touch the mutex. -/
theorem fanOutAudio_no_mutexOp (buf : Buffer) (len : Int)
    (es : List (Sigma (fun _ : String => Option MediaSink))) :
    ∀ e ∈ fanOutAudio buf len es, e.isMutexOp = false := by
  intro e he
  rcases (mem_fanOutAudio buf len es e).mp he with h | ⟨-, h | h⟩ | ⟨p, s, -, h⟩ <;>
    subst h <;> rfl

/-- The VIDEO fan-out loop does not touch the mutex. -/
theorem fanOutVideo_no_mutexOp (buf : Buffer) (len : Int)
    (es : List (Sigma (fun _ : String => Option MediaSink))) :
    ∀ e ∈ fanOutVideo buf len es, e.isMutexOp = false := by
  intro e he
  rcases (mem_fanOutVideo buf len es e).mp he with h | ⟨-, h | h⟩ | ⟨p, s, -, h⟩ <;>
    subst h <;> rfl

/-- The loop of `closeAll` does not touch the mutex. -/
theorem closeAllLoop_no_mutexOp (es : List (Sigma (fun _ : String => Option MediaSink))) :
    ∀ (subs : SubscriberMap), ∀ e ∈ (closeAllLoop subs es).2, e.isMutexOp = false := by
  induction es with
  | nil =>
    intro subs e he
    simp only [closeAllLoop, List.mem_singleton] at he
    subst he
    rfl
  | cons x rest ih =>
    intro subs e he
    obtain ⟨k, v⟩ := x
    have hstep : e.isMutexOp = false ∨ e ∈ (closeAllLoop (subs.erase k) rest).2 := by
      cases v with
      | none =>
        simp only [closeAllLoop, releaseOwner, List.cons_append, List.nil_append,
          List.append_nil, List.mem_cons, List.mem_append, List.not_mem_nil, false_or] at he
        rcases he with h | h | h | h | h
        · subst h; exact Or.inl rfl
        · subst h; exact Or.inl rfl
        · subst h; exact Or.inl rfl
        · subst h; exact Or.inl rfl
        · exact Or.inr h
      | some sink =>
        cases hfb : sink.feedbackSource with
        | none =>
          simp only [closeAllLoop, releaseOwner, hfb, List.cons_append, List.nil_append,
            List.append_nil, List.mem_cons, List.mem_append, List.not_mem_nil, or_false,
            List.mem_singleton] at he
          rcases he with h | h | h | h | h | h | h
          · subst h; exact Or.inl rfl
          · subst h; exact Or.inl rfl
          · subst h; exact Or.inl rfl
          · subst h; exact Or.inl rfl
          · subst h; exact Or.inl rfl
          · subst h; exact Or.inl rfl
          · exact Or.inr h
        | some g =>
          simp only [closeAllLoop, releaseOwner, hfb, List.cons_append, List.nil_append,
            List.append_nil, List.mem_cons, List.mem_append, List.not_mem_nil, or_false,
            List.mem_singleton] at he
          rcases he with h | h | h | h | h | h | h | h
          · subst h; exact Or.inl rfl
          · subst h; exact Or.inl rfl
          · subst h; exact Or.inl rfl
          · subst h; exact Or.inl rfl
          · subst h; exact Or.inl rfl
          · subst h; exact Or.inl rfl
          · subst h; exact Or.inl rfl
          · exact Or.inr h
    rcases hstep with h1 | h1
    · exact h1
    · exact ih _ e h1

/-- One critical section: the mutex taken, a first access, a stretch without mutex
operation, the mutex released. -/
theorem lockDiscipline_critical_section (op : RegistryOp) (loop : List Ev)
    (h : ∀ e ∈ loop, e.isMutexOp = false) :
    lockDiscipline (Ev.lock :: Ev.registry op :: (loop ++ [Ev.unlock])) = true := by
  have h1 : accessesUnderLock false (Ev.lock :: Ev.registry op :: (loop ++ [Ev.unlock]))
      = accessesUnderLock true (loop ++ [Ev.unlock]) := by
    simp [accessesUnderLock]
  have h2 : heldBetweenAccesses false false (Ev.lock :: Ev.registry op :: (loop ++ [Ev.unlock]))
      = heldBetweenAccesses true false (loop ++ [Ev.unlock]) := by
    simp [heldBetweenAccesses]
  rw [lockDiscipline, h1, h2, accessesUnderLock_append _ _ h, heldBetweenAccesses_append _ _ h]
  rfl

/-- C10 fails as stated: `receiveRtpData` tests `subscribers_.empty()` before it takes the
mutex, and `closeAll` releases and re-takes the mutex between its erase loop and its final
`clear()`, already on a mixer without subscriber. -/
theorem lock_discipline_broken :
    (receiveRtpData twoSubscribers 5 10 DataType.AUDIO 7).trace.head?
        = some (Ev.registry RegistryOp.isEmpty)
    ∧ accessesUnderLock false (receiveRtpData twoSubscribers 5 10 DataType.AUDIO 7).trace = false
    ∧ lockDiscipline (receiveRtpData twoSubscribers 5 10 DataType.AUDIO 7).trace = false
    ∧ (closeAll (MCUMixer.empty theFeedback)).trace
        = [Ev.lock, Ev.registry RegistryOp.iterBegin, Ev.registry RegistryOp.iterEnd, Ev.unlock,
            Ev.lock, Ev.registry RegistryOp.clear, Ev.unlock]
    ∧ heldBetweenAccesses false false (closeAll (MCUMixer.empty theFeedback)).trace = false
    ∧ lockDiscipline (closeAll (MCUMixer.empty theFeedback)).trace = false := by
  decide

/-- C10, amended: `addSubscriber` and `removeSubscriber` make every registry access under
the mutex and hold it from the first access to the last; so does `receiveRtpData` for
everything that follows its initial emptiness test; `closeAll` makes every registry access
under the mutex, which it holds throughout its erase loop, then releases and takes again
for the final `clear()`. -/
theorem lock_discipline_amended (m : MCUMixer) (suber : MediaSink) (peerId : String)
    (buf : Buffer) (len : Int) (type : DataType) (streamId : Nat) :
    lockDiscipline (addSubscriber m suber peerId).trace = true
    ∧ lockDiscipline (removeSubscriber m peerId).trace = true
    ∧ (∃ rest, (receiveRtpData m buf len type streamId).trace
          = Ev.registry RegistryOp.isEmpty :: rest ∧ lockDiscipline rest = true)
    ∧ accessesUnderLock false (closeAll m).trace = true
    ∧ (∃ loop, (closeAll m).trace
          = loop ++ [Ev.lock, Ev.registry RegistryOp.clear, Ev.unlock]
        ∧ lockDiscipline loop = true) := by
  refine ⟨?_, ?_, ?_, ?_, ?_⟩
  · cases h : suber.feedbackSource <;> rcases hl : m.subscribers_.lookup peerId with _ | _ | old <;>
      simp [addSubscriber, releaseOwner, h, hl, lockDiscipline, accessesUnderLock,
        heldBetweenAccesses]
  · rcases hl : m.subscribers_.lookup peerId with _ | _ | old <;>
      simp [removeSubscriber, releaseOwner, hl, lockDiscipline, accessesUnderLock,
        heldBetweenAccesses]
  · unfold receiveRtpData
    split
    · exact ⟨[], rfl, rfl⟩
    · cases type
      · refine ⟨_, rfl, ?_⟩
        exact lockDiscipline_critical_section _ _ (fanOutVideo_no_mutexOp buf len _)
      · refine ⟨_, rfl, ?_⟩
        exact lockDiscipline_critical_section _ _ (fanOutAudio_no_mutexOp buf len _)
      · exact ⟨_, rfl, rfl⟩
  · have h : accessesUnderLock false (closeAll m).trace
        = accessesUnderLock true ((closeAllLoop m.subscribers_ m.subscribers_.entries).2
            ++ [Ev.unlock, Ev.lock, Ev.registry RegistryOp.clear, Ev.unlock]) := by
      simp [closeAll, accessesUnderLock]
    rw [h, accessesUnderLock_append _ _ (closeAllLoop_no_mutexOp _ _)]
    rfl
  · refine ⟨Ev.lock :: Ev.registry RegistryOp.iterBegin
        :: ((closeAllLoop m.subscribers_ m.subscribers_.entries).2 ++ [Ev.unlock]), ?_,
      lockDiscipline_critical_section _ _ (closeAllLoop_no_mutexOp _ _)⟩
    simp [closeAll]

/-! ### Slot table -/

/-- What `assignSlot` does: the index it returns is free, every lower index is occupied,
and the table afterwards differs from the table before at that index only, where it holds
the publisher. -/
theorem assignSlot_spec (pub : MediaSource) (tbl : SlotTable) :
    slotAt tbl (assignSlot pub tbl).2 = none
    ∧ (∀ j, j < (assignSlot pub tbl).2 → slotAt tbl j ≠ none)
    ∧ (∀ j, slotAt (assignSlot pub tbl).1 j
          = if j = (assignSlot pub tbl).2 then some pub else slotAt tbl j) := by
  induction tbl with
  | nil =>
    refine ⟨rfl, ?_, ?_⟩
    · intro j hj
      simp [assignSlot] at hj
    · intro j
      cases j <;> simp [assignSlot, slotAt]
  | cons s rest ih =>
    cases s with
    | none =>
      refine ⟨rfl, ?_, ?_⟩
      · intro j hj
        simp [assignSlot] at hj
      · intro j
        cases j <;> simp [assignSlot, slotAt]
    | some q =>
      obtain ⟨h1, h2, h3⟩ := ih
      refine ⟨?_, ?_, ?_⟩
      · simpa [assignSlot, slotAt] using h1
      · intro j hj
        cases j with
        | zero => simp [slotAt]
        | succ j =>
          simp only [assignSlot, Nat.add_lt_add_iff_right] at hj
          simpa [slotAt] using h2 j hj
      · intro j
        cases j with
        | zero => simp [assignSlot, slotAt]
        | succ j => simpa [assignSlot, slotAt] using h3 j

/-- The slot `findSlot` returns holds the publisher. -/
theorem findSlot_some (pub : MediaSource) (tbl : SlotTable) :
    ∀ i, findSlot pub tbl = some i → slotAt tbl i = some pub := by
  induction tbl with
  | nil =>
    intro i h
    simp [findSlot] at h
  | cons s rest ih =>
    intro i h
    simp only [findSlot] at h
    by_cases hs : s = some pub
    · simp only [hs, if_true, Option.some.injEq] at h
      subst h
      simpa [slotAt] using hs
    · simp only [hs, if_false, Option.map_eq_some'] at h
      obtain ⟨j, hj, rfl⟩ := h
      simpa [slotAt] using ih j hj

/-- When `findSlot` finds nothing, no slot holds the publisher. -/
theorem findSlot_none (pub : MediaSource) (tbl : SlotTable) :
    findSlot pub tbl = none → ∀ i, slotAt tbl i ≠ some pub := by
  induction tbl with
  | nil =>
    intro _ i
    simp [slotAt]
  | cons s rest ih =>
    intro h i
    simp only [findSlot] at h
    by_cases hs : s = some pub
    · simp [hs] at h
    · simp only [hs, if_false, Option.map_eq_none'] at h
      cases i with
      | zero => simpa [slotAt] using hs
      | succ i => simpa [slotAt] using ih h i

/-- Clearing a slot empties it and leaves the other slots alone. -/
theorem slotAt_set_none (tbl : SlotTable) :
    ∀ i j, slotAt (tbl.set i none) j = if j = i then none else slotAt tbl j := by
  induction tbl with
  | nil =>
    intro i j
    simp [slotAt]
  | cons s rest ih =>
    intro i j
    cases i with
    | zero =>
      cases j <;> simp [slotAt]
    | succ i =>
      cases j with
      | zero => simp [slotAt]
      | succ j => simpa [slotAt] using ih i j
/-! ### Publisher registry -/

/-- The registration branch of `addPublisher`: taken when the source has no entry holding a
receiver. -/
theorem addPublisher_fresh (m : MCUMixer) (p : MediaSource)
    (h : ∀ r, m.publishers_.lookup p ≠ some (some r)) :
    addPublisher m p
      = some ⟨{ m with
                puberSlotMap_ := (assignSlot p m.puberSlotMap_).1,
                publishers_ := m.publishers_.insert p
                  (some ⟨⟨((assignSlot p m.puberSlotMap_).2 : Int),
                    ⟨((assignSlot p m.puberSlotMap_).2 : Int)⟩⟩⟩) }, (),
              [Ev.updateMaxSlot (maxSlot (assignSlot p m.puberSlotMap_).1),
                Ev.setMixabilityStatus ⟨((assignSlot p m.puberSlotMap_).2 : Int)⟩ true]⟩ := by
  cases hl : m.publishers_.lookup p with
  | none => simp [addPublisher, hl]
  | some v =>
    cases v with
    | none => simp [addPublisher, hl]
    | some r => exact absurd hl (h r)

/-- The branch of `addPublisher` for a source whose entry holds a receiver: the slot has
been assigned already, the asserted string literal holds, the call returns. -/
theorem addPublisher_registered (m : MCUMixer) (p : MediaSource) (r : ProtectedRTPReceiver)
    (h : m.publishers_.lookup p = some (some r)) :
    addPublisher m p
      = some ⟨{ m with puberSlotMap_ := (assignSlot p m.puberSlotMap_).1 }, (), []⟩ := by
  unfold addPublisher
  simp only [h]
  rfl

/-- What `getSlot` returns for a publisher sitting in the table. -/
theorem getSlot_of_slotAt (m : MCUMixer) (hm : SlotsAgree m) (p : MediaSource)
    (r : ProtectedRTPReceiver) (h : m.publishers_.lookup p = some (some r)) :
    getSlot p m.puberSlotMap_ = r.ip.index
    ∧ ∃ i : Nat, r.ip.index = (i : Int) ∧ slotAt m.puberSlotMap_ i = some p := by
  obtain ⟨-, hA1, hA2⟩ := hm
  obtain ⟨i, hi, hs⟩ := hA2 p r h
  refine ⟨?_, i, hi, hs⟩
  unfold getSlot
  cases hf : findSlot p m.puberSlotMap_ with
  | none => exact absurd hs (findSlot_none p _ hf i)
  | some j =>
    obtain ⟨r1, hr1, hj⟩ := hA1 j p (findSlot_some p _ j hf)
    rw [h] at hr1
    cases hr1
    exact hj.symm

/-- Under agreement, `removePublisher` of a registered source returns, having cleared the
slot of the source and erased its entry. -/
theorem removePublisher_registered (m : MCUMixer) (hm : SlotsAgree m) (p : MediaSource)
    (r : ProtectedRTPReceiver) (h : m.publishers_.lookup p = some (some r)) :
    removePublisher m p
      = some ⟨{ m with puberSlotMap_ := m.puberSlotMap_.set r.ip.index.toNat none,
                       publishers_ := m.publishers_.erase p }, (), []⟩ := by
  obtain ⟨hg, i, hi, -⟩ := getSlot_of_slotAt m hm p r h
  unfold removePublisher
  simp only [h, hg, hi, cAssert]
  simp

/-- The fresh mixer satisfies the agreement. -/
theorem slotsAgree_empty (fb : FeedbackSink) : SlotsAgree (MCUMixer.empty fb) := by
  refine ⟨?_, ?_, ?_⟩
  · intro p
    simp [MCUMixer.empty]
  · intro i p h
    simp [MCUMixer.empty, slotAt] at h
  · intro p r h
    simp [MCUMixer.empty] at h

/-- Adding a source that has no entry keeps the agreement. -/
theorem slotsAgree_add (m : MCUMixer) (hm : SlotsAgree m) (p : MediaSource)
    (hp : m.publishers_.lookup p = none) :
    ∃ o, addPublisher m p = some o ∧ SlotsAgree o.mixer := by
  have hfresh : ∀ r, m.publishers_.lookup p ≠ some (some r) := by
    intro r hr
    rw [hp] at hr
    cases hr
  refine ⟨_, addPublisher_fresh m p hfresh, ?_⟩
  obtain ⟨hN, hA1, hA2⟩ := hm
  obtain ⟨hfree, -, hat⟩ := assignSlot_spec p m.puberSlotMap_
  refine ⟨?_, ?_, ?_⟩
  · intro q
    by_cases hq : q = p
    · subst hq
      simp
    · simpa [AList.lookup_insert_ne hq] using hN q
  · intro i q hs
    simp only [hat] at hs
    by_cases hi : i = (assignSlot p m.puberSlotMap_).2
    · simp only [hi, if_true, Option.some.injEq] at hs
      subst hs
      exact ⟨_, AList.lookup_insert _, by simp [hi]⟩
    · simp only [hi, if_false] at hs
      obtain ⟨r, hr, hidx⟩ := hA1 i q hs
      have hq : q ≠ p := by
        rintro rfl
        rw [hp] at hr
        cases hr
      exact ⟨r, by simpa [AList.lookup_insert_ne hq] using hr, hidx⟩
  · intro q r hr
    by_cases hq : q = p
    · subst hq
      simp only [AList.lookup_insert, Option.some.injEq] at hr
      subst hr
      exact ⟨(assignSlot q m.puberSlotMap_).2, rfl, by simp [hat]⟩
    · simp only [AList.lookup_insert_ne hq] at hr
      obtain ⟨i, hi, hs⟩ := hA2 q r hr
      refine ⟨i, hi, ?_⟩
      simp only [hat]
      have hne : i ≠ (assignSlot p m.puberSlotMap_).2 := by
        rintro rfl
        rw [hfree] at hs
        cases hs
      simpa [hne] using hs

/-- Removing a source keeps the agreement, and the call returns. -/
theorem slotsAgree_remove (m : MCUMixer) (hm : SlotsAgree m) (p : MediaSource) :
    ∃ o, removePublisher m p = some o ∧ SlotsAgree o.mixer := by
  cases hl : m.publishers_.lookup p with
  | none =>
    refine ⟨⟨m, (), []⟩, ?_, hm⟩
    simp [removePublisher, hl]
  | some v =>
    cases v with
    | none => exact absurd hl (hm.1 p)
    | some r =>
      refine ⟨_, removePublisher_registered m hm p r hl, ?_⟩
      obtain ⟨-, i0, hi0, hs0⟩ := getSlot_of_slotAt m hm p r hl
      obtain ⟨hN, hA1, hA2⟩ := hm
      have hnat : r.ip.index.toNat = i0 := by simp [hi0]
      refine ⟨?_, ?_, ?_⟩
      · intro q
        by_cases hq : q = p
        · subst hq
          simp
        · simpa [AList.lookup_erase_ne hq] using hN q
      · intro i q hs
        simp only [hnat, slotAt_set_none] at hs
        by_cases hi : i = i0
        · simp [hi] at hs
        · simp only [hi, if_false] at hs
          obtain ⟨r1, hr1, hidx⟩ := hA1 i q hs
          have hq : q ≠ p := by
            rintro rfl
            rw [hl] at hr1
            cases hr1
            rw [hi0] at hidx
            exact hi (Int.ofNat.inj hidx).symm
          exact ⟨r1, by simpa [AList.lookup_erase_ne hq] using hr1, hidx⟩
      · intro q r1 hr1
        by_cases hq : q = p
        · subst hq
          simp at hr1
        · simp only [AList.lookup_erase_ne hq] at hr1
          obtain ⟨i, hi, hs⟩ := hA2 q r1 hr1
          refine ⟨i, hi, ?_⟩
          simp only [hnat, slotAt_set_none]
          have hne : i ≠ i0 := by
            rintro rfl
            rw [hs0] at hs
            cases hs
            exact hq rfl
          simpa [hne] using hs

/-- Every run without double add from a mixer in agreement goes through and ends in
agreement. -/
theorem slotsAgree_run (ops : List PublisherOp) :
    ∀ m, SlotsAgree m → noDoubleAdd m ops = true →
      ∃ m1, runOps m ops = some m1 ∧ SlotsAgree m1 := by
  induction ops with
  | nil =>
    intro m hm _
    exact ⟨m, rfl, hm⟩
  | cons op rest ih =>
    intro m hm hops
    cases op with
    | add p =>
      simp only [noDoubleAdd, Bool.and_eq_true, Bool.not_eq_true', isRegistered] at hops
      have hp : m.publishers_.lookup p = none := by
        cases hl : m.publishers_.lookup p with
        | none => rfl
        | some v => simp [hl] at hops
      obtain ⟨o, ho, hag⟩ := slotsAgree_add m hm p hp
      have happ : applyOp m (PublisherOp.add p) = some o.mixer := by
        simp [applyOp, ho]
      rw [happ] at hops
      obtain ⟨m1, hrun, hm1⟩ := ih o.mixer hag hops.2
      exact ⟨m1, by simp [runOps, happ, hrun], hm1⟩
    | remove p =>
      simp only [noDoubleAdd, Bool.true_and] at hops
      obtain ⟨o, ho, hag⟩ := slotsAgree_remove m hm p
      have happ : applyOp m (PublisherOp.remove p) = some o.mixer := by
        simp [applyOp, ho]
      rw [happ] at hops
      obtain ⟨m1, hrun, hm1⟩ := ih o.mixer hag hops
      exact ⟨m1, by simp [runOps, happ, hrun], hm1⟩
/-- A sequence without double add splits into a first part without double add and, from
the state that part reaches, a second part without double add. -/
theorem noDoubleAdd_append (pre post : List PublisherOp) :
    ∀ m, noDoubleAdd m (pre ++ post) = true →
      noDoubleAdd m pre = true ∧ ∀ m1, runOps m pre = some m1 → noDoubleAdd m1 post = true := by
  induction pre with
  | nil =>
    intro m h
    refine ⟨rfl, ?_⟩
    intro m1 hrun
    simp only [runOps, Option.some.injEq] at hrun
    subst hrun
    exact h
  | cons op rest ih =>
    intro m h
    simp only [List.cons_append, noDoubleAdd, Bool.and_eq_true] at h
    obtain ⟨hguard, htail⟩ := h
    cases happ : applyOp m op with
    | none =>
      refine ⟨?_, ?_⟩
      · simp only [noDoubleAdd, Bool.and_eq_true, happ]
        exact ⟨hguard, trivial⟩
      · intro m1 hrun
        simp [runOps, happ] at hrun
    | some m2 =>
      rw [happ] at htail
      obtain ⟨h1, h2⟩ := ih m2 htail
      refine ⟨?_, ?_⟩
      · simp only [noDoubleAdd, Bool.and_eq_true, happ]
        exact ⟨hguard, h1⟩
      · intro m1 hrun
        simp only [runOps, happ] at hrun
        exact h2 m1 hrun

/-- C1: take any sequence of `addPublisher`/`removePublisher` calls from the fresh mixer in
which no source is added while registered, cut anywhere into the calls made (`done`) and
the calls to come (`todo`).  The calls made have all returned, and in the state reached: a
slot holds a publisher exactly when that publisher is registered with a receiver built for
that slot; two registered publishers never have the same slot; and if the next call is
`addPublisher(p)`, it returns having given `p` the lowest slot index that was unoccupied,
every other slot being as before. -/
theorem slot_allocation (fb : FeedbackSink) (done todo : List PublisherOp)
    (hops : noDoubleAdd (MCUMixer.empty fb) (done ++ todo) = true) :
    ∃ m, runOps (MCUMixer.empty fb) done = some m
      ∧ (∀ (i : Nat) p, slotAt m.puberSlotMap_ i = some p ↔
          ∃ r, m.publishers_.lookup p = some (some r) ∧ r.ip.index = (i : Int))
      ∧ (∀ p q rp rq, m.publishers_.lookup p = some (some rp) →
          m.publishers_.lookup q = some (some rq) → rp.ip.index = rq.ip.index → p = q)
      ∧ (∀ p rest, todo = PublisherOp.add p :: rest →
          ∃ (o : Outcome Unit) (k : Nat), addPublisher m p = some o
            ∧ o.mixer.publishers_.lookup p = some (some ⟨⟨(k : Int), ⟨(k : Int)⟩⟩⟩)
            ∧ slotAt o.mixer.puberSlotMap_ k = some p
            ∧ slotAt m.puberSlotMap_ k = none
            ∧ (∀ j, j < k → slotAt m.puberSlotMap_ j ≠ none)
            ∧ (∀ j, j ≠ k → slotAt o.mixer.puberSlotMap_ j = slotAt m.puberSlotMap_ j)) := by
  obtain ⟨hdone, htodo⟩ := noDoubleAdd_append done todo _ hops
  obtain ⟨m, hrun, hN, hA1, hA2⟩ := slotsAgree_run done _ (slotsAgree_empty fb) hdone
  refine ⟨m, hrun, ?_, ?_, ?_⟩
  · intro i p
    constructor
    · exact hA1 i p
    · rintro ⟨r, hr, hidx⟩
      obtain ⟨j, hj, hs⟩ := hA2 p r hr
      have : j = i := by
        rw [hidx] at hj
        exact (Int.ofNat.inj hj).symm
      rw [← this]
      exact hs
  · intro p q rp rq hp hq hidx
    obtain ⟨i, hi, hsp⟩ := hA2 p rp hp
    obtain ⟨j, hj, hsq⟩ := hA2 q rq hq
    have : i = j := by
      rw [hidx, hj] at hi
      exact (Int.ofNat.inj hi).symm
    rw [this, hsq] at hsp
    exact (Option.some.inj hsp).symm
  · intro p rest hnext
    have hp := htodo m hrun
    rw [hnext] at hp
    simp only [noDoubleAdd, Bool.and_eq_true, Bool.not_eq_true'] at hp
    have hnone : m.publishers_.lookup p = none := by
      cases hl : m.publishers_.lookup p with
      | none => rfl
      | some v => simp [isRegistered, hl] at hp
    have hfresh : ∀ r, m.publishers_.lookup p ≠ some (some r) := by
      intro r hr
      rw [hnone] at hr
      cases hr
    obtain ⟨hfree, hlow, hat⟩ := assignSlot_spec p m.puberSlotMap_
    refine ⟨_, (assignSlot p m.puberSlotMap_).2, addPublisher_fresh m p hfresh, ?_, ?_, hfree,
      hlow, ?_⟩
    · exact AList.lookup_insert _
    · simp [hat]
    · intro j hj
      simp [hat, hj]

/-- C1 at the scenario of the specification: P0 = 1000 and P1 = 1001 get slots 0 and 1;
removing P0 frees slot 0 while P1 stays in slot 1; P2 = 1002 then gets slot 0, and two
slots are populated. -/
theorem slot_allocation_witness :
    noDoubleAdd (MCUMixer.empty theFeedback)
        ([PublisherOp.add 1000, PublisherOp.add 1001, PublisherOp.remove 1000]
          ++ [PublisherOp.add 1002]) = true
    ∧ (runOps (MCUMixer.empty theFeedback) [PublisherOp.add 1000, PublisherOp.add 1001]).map
        (fun m => m.puberSlotMap_) = some [some 1000, some 1001]
    ∧ (runOps (MCUMixer.empty theFeedback)
        [PublisherOp.add 1000, PublisherOp.add 1001, PublisherOp.remove 1000]).map
        (fun m => m.puberSlotMap_) = some [none, some 1001]
    ∧ (runOps (MCUMixer.empty theFeedback)
        [PublisherOp.add 1000, PublisherOp.add 1001, PublisherOp.remove 1000,
          PublisherOp.add 1002]).map
        (fun m => (m.puberSlotMap_, maxSlot m.puberSlotMap_))
          = some ([some 1002, some 1001], 2)
    ∧ ∃ m, runOps (MCUMixer.empty theFeedback)
          [PublisherOp.add 1000, PublisherOp.add 1001, PublisherOp.remove 1000] = some m
        ∧ (∀ p q rp rq, m.publishers_.lookup p = some (some rp) →
            m.publishers_.lookup q = some (some rq) → rp.ip.index = rq.ip.index → p = q)
        ∧ ∃ (o : Outcome Unit) (k : Nat), addPublisher m 1002 = some o
            ∧ o.mixer.publishers_.lookup 1002 = some (some ⟨⟨(k : Int), ⟨(k : Int)⟩⟩⟩)
            ∧ slotAt m.puberSlotMap_ k = none
            ∧ (∀ j, j < k → slotAt m.puberSlotMap_ j ≠ none) :=
  ⟨by decide, by decide, by decide, by decide,
    (slot_allocation theFeedback
      [PublisherOp.add 1000, PublisherOp.add 1001, PublisherOp.remove 1000]
      [PublisherOp.add 1002] (by decide)).imp
      (fun _ h =>
        ⟨h.1, h.2.2.1,
          (h.2.2.2 1002 [] rfl).imp (fun _ ho =>
            ho.imp (fun _ hk => ⟨hk.1, hk.2.1, hk.2.2.2.1, hk.2.2.2.2.1⟩))⟩)⟩

/-- C2, the code at the failing input: `addPublisher(1000)` on the mixer where 1000 is
registered returns normally instead of aborting; the registry keeps its single entry for
1000 and a second slot has been taken for it. -/
theorem addPublisher_again_returns :
    onePublisher.publishers_.lookup 1000 = some (some ⟨⟨0, ⟨0⟩⟩⟩)
    ∧ onePublisher.puberSlotMap_ = [some 1000]
    ∧ (addPublisher onePublisher 1000).isSome = true
    ∧ (addPublisher onePublisher 1000).map (fun o => o.mixer.publishers_.entries)
        = some [⟨1000, some ⟨⟨0, ⟨0⟩⟩⟩⟩]
    ∧ (addPublisher onePublisher 1000).map (fun o => o.mixer.puberSlotMap_)
        = some [some 1000, some 1000] := by
  decide

/-- C9 fails as stated: in the mixer holding publishers 1000 and 1001 in slots 0 and 1,
`removePublisher(1001)` lowers the maximum occupied slot from 1 to 0 (and the count of
populated slots from 2 to 1) without calling `updateMaxSlot`. -/
theorem removePublisher_skips_updateMaxSlot :
    twoPublishers.puberSlotMap_ = [some 1000, some 1001]
    ∧ maxOccupiedSlot twoPublishers.puberSlotMap_ = some 1
    ∧ maxSlot twoPublishers.puberSlotMap_ = 2
    ∧ (removePublisher twoPublishers 1001).map (fun o => (o.mixer.puberSlotMap_, o.trace))
        = some ([some 1000, none], [])
    ∧ maxOccupiedSlot [some 1000, none] = some 0
    ∧ maxSlot [some 1000, none] = 1 := by
  decide

/-- C9, amended: `addPublisher` of a source whose entry holds no receiver calls
`updateMaxSlot` exactly once, with `maxSlot()` of the slot table as the call leaves it;
`removePublisher` never calls `updateMaxSlot`. -/
theorem updateMaxSlot_on_registration (m : MCUMixer) (p : MediaSource)
    (h : m.publishers_.lookup p = none ∨ m.publishers_.lookup p = some none) :
    (∃ o, addPublisher m p = some o
      ∧ o.trace.filter Ev.isUpdateMaxSlot = [Ev.updateMaxSlot (maxSlot o.mixer.puberSlotMap_)])
    ∧ (∀ q o, removePublisher m q = some o → ∀ e ∈ o.trace, e.isUpdateMaxSlot = false) := by
  have hfresh : ∀ r, m.publishers_.lookup p ≠ some (some r) := by
    intro r hr
    rcases h with h | h <;> rw [h] at hr <;> cases hr
  refine ⟨⟨_, addPublisher_fresh m p hfresh, ?_⟩, ?_⟩
  · simp [List.filter, Ev.isUpdateMaxSlot]
  · intro q o ho e he
    unfold removePublisher at ho
    split at ho
    · simp only [cAssert] at ho
      split at ho
      · cases ho
        cases he
      · cases ho
    · cases ho
      cases he

/-- C9, amended, at a concrete input: adding 1002 to the mixer where 1000 has been removed
and 1001 sits in slot 1 fills slot 0 and reports 2. -/
theorem updateMaxSlot_on_registration_witness :
    ((mixerOr twoPublishers (removePublisher twoPublishers 1000)).publishers_.lookup 1002 = none
      ∨ (mixerOr twoPublishers (removePublisher twoPublishers 1000)).publishers_.lookup 1002
          = some none)
    ∧ (addPublisher (mixerOr twoPublishers (removePublisher twoPublishers 1000)) 1002).map
        (fun o => (o.mixer.puberSlotMap_, o.trace.filter Ev.isUpdateMaxSlot))
        = some ([some 1002, some 1001], [Ev.updateMaxSlot 2])
    ∧ ∃ o, addPublisher (mixerOr twoPublishers (removePublisher twoPublishers 1000)) 1002
          = some o
        ∧ o.trace.filter Ev.isUpdateMaxSlot
          = [Ev.updateMaxSlot (maxSlot o.mixer.puberSlotMap_)] :=
  ⟨Or.inl (by decide), by decide,
    (updateMaxSlot_on_registration
      (mixerOr twoPublishers (removePublisher twoPublishers 1000)) 1002
      (Or.inl (by decide))).1⟩

end mcu
